import Mathlib

/-!
Verification of the plugin-loading and descriptor layer of
`common/lib/xmodule/xmodule/x_module.py`.

The Python code is shallowly embedded: Python dictionaries over string keys
become association lists (`Dict`), Python sets of strings become duplicate-free
lists built with `setAdd`, the mutable per-class plugin cache of `Plugin`
becomes explicit state passed to and returned from `load_class`, and the
entry-point registry of `pkg_resources` becomes an explicit list of
`EntryPoint` records.  Observable side effects that the source performs
(querying the registry, logging a warning) are recorded in the `LoadOutcome`
result so that theorems can speak about them.
-/

namespace XModulePy

/-! ### Python dictionaries and sets with string keys

`Dict α` models a Python `dict` mapping strings to `α`.  `dictLookup` is
`d[k]` / `d.get(k)`, `dictContains` is `k in d`, and `dictInsert` is the
assignment `d[k] = v` (replacing in place when the key is present, appending
otherwise, as CPython dicts preserve insertion order).  `setAdd` is Python's
`set.add`. -/

abbrev Dict (α : Type) := List (String × α)

def dictLookup {α : Type} : Dict α → String → Option α
  | [], _ => none
  | (k, v) :: rest, key => if k = key then some v else dictLookup rest key

def dictContains {α : Type} (d : Dict α) (key : String) : Bool :=
  (dictLookup d key).isSome

def dictInsert {α : Type} : Dict α → String → α → Dict α
  | [], key, v => [(key, v)]
  | (k, w) :: rest, key, v =>
      if k = key then (key, v) :: rest else (k, w) :: dictInsert rest key v

def setAdd (s : List String) (x : String) : List String :=
  if x ∈ s then s else s ++ [x]

theorem dictLookup_insert_self {α : Type} (d : Dict α) (k : String) (v : α) :
    dictLookup (dictInsert d k v) k = some v := by
  induction d with
  | nil => simp [dictInsert, dictLookup]
  | cons p rest ih =>
    by_cases h : p.1 = k
    · simp [dictInsert, h, dictLookup]
    · simp [dictInsert, h, dictLookup, ih]

theorem dictLookup_insert_ne {α : Type} (d : Dict α) (k k' : String) (v : α)
    (h : k' ≠ k) : dictLookup (dictInsert d k v) k' = dictLookup d k' := by
  induction d with
  | nil => simp [dictInsert, dictLookup, Ne.symm h]
  | cons p rest ih =>
    obtain ⟨pk, pv⟩ := p
    by_cases hp : pk = k
    · subst hp
      simp [dictInsert, dictLookup, Ne.symm h]
    · by_cases hp' : pk = k'
      · subst hp'
        simp [dictInsert, dictLookup, h]
      · simp [dictInsert, hp, dictLookup, hp', ih]

theorem mem_dictInsert {α : Type} (d : Dict α) (k : String) (v : α) :
    ∀ p ∈ dictInsert d k v, p = (k, v) ∨ p ∈ d := by
  induction d with
  | nil => simp [dictInsert]
  | cons q rest ih =>
    obtain ⟨qk, qv⟩ := q
    intro p hmem
    by_cases h : qk = k
    · subst h
      rw [dictInsert, if_pos rfl] at hmem
      rcases List.mem_cons.mp hmem with h1 | h1
      · exact Or.inl h1
      · exact Or.inr (List.mem_cons_of_mem _ h1)
    · rw [dictInsert, if_neg h] at hmem
      rcases List.mem_cons.mp hmem with h1 | h1
      · exact Or.inr (by simp [h1])
      · rcases ih p h1 with h2 | h2
        · exact Or.inl h2
        · exact Or.inr (List.mem_cons_of_mem _ h2)

theorem mem_of_dictLookup_eq_some {α : Type} (d : Dict α) (key : String) (v : α)
    (h : dictLookup d key = some v) : (key, v) ∈ d := by
  induction d with
  | nil => simp [dictLookup] at h
  | cons p rest ih =>
    obtain ⟨pk, pv⟩ := p
    by_cases hp : pk = key
    · subst hp
      simp [dictLookup] at h
      subst h
      exact List.mem_cons_self _ _
    · rw [dictLookup, if_neg hp] at h
      exact List.mem_cons_of_mem _ (ih h)

theorem mem_setAdd (s : List String) (x y : String) :
    y ∈ setAdd s x ↔ y ∈ s ∨ y = x := by
  unfold setAdd
  by_cases h : x ∈ s
  · simp only [h, if_pos]
    constructor
    · exact Or.inl
    · rintro (hy | rfl) <;> assumption
  · simp [h]

/-! ### Lower-casing

`py_lower` models Python's `str.lower()` on the ASCII identifiers used as
plugin keys: every character in the range `A`–`Z` is shifted to its lowercase
counterpart, all other characters are unchanged. -/

def py_lower_char (c : Char) : Char :=
  if 65 ≤ c.toNat ∧ c.toNat ≤ 90 then Char.ofNat (c.toNat + 32) else c

def py_lower (s : String) : String := String.mk (s.data.map py_lower_char)

theorem toNat_ofNat_shift32 (n : Nat) (h1 : 65 ≤ n) (h2 : n ≤ 90) :
    (Char.ofNat (n + 32)).toNat = n + 32 := by
  have hv : (n + 32).isValidChar := Or.inl (by omega)
  rw [Char.ofNat, dif_pos hv]
  simp [Char.ofNatAux, Char.toNat, UInt32.toNat, UInt32.ofNatCore]

theorem py_lower_char_idem (c : Char) :
    py_lower_char (py_lower_char c) = py_lower_char c := by
  unfold py_lower_char
  by_cases h : 65 ≤ c.toNat ∧ c.toNat ≤ 90
  · rw [if_pos h]
    have := toNat_ofNat_shift32 c.toNat h.1 h.2
    rw [if_neg (by omega)]
  · rw [if_neg h, if_neg h]

theorem py_lower_idem (s : String) : py_lower (py_lower s) = py_lower s := by
  unfold py_lower
  rw [List.map_map]
  congr 1
  exact List.map_congr_left (fun c _ => py_lower_char_idem c)

/-! ### The plugin registry: `Plugin.load_class`

An `EntryPoint` models one `pkg_resources` entry point: its registered
`name`, its `module_name` (only used in the warning message) and `cls`, the
class that `EntryPoint.load()` would return (classes are opaque here and are
represented by their name).  `iter_entry_points` models
`pkg_resources.iter_entry_points(cls.entry_point, name=identifier)`: the
entry points of the registry whose name equals the identifier, in registry
order.

`Plugin._plugin_cache` starts out as `None` and is replaced by a dict on the
first call, so the cache state is `Option (Dict String)`.  `load_class`
returns a `LoadOutcome` recording the Python return/raise (`result`, where
`Except.error ident` stands for `raise ModuleMissingError(ident)`), the
cache state after the call, whether the entry-point registry was queried,
and whether the ambiguity warning was logged. -/

structure EntryPoint where
  name : String
  module_name : String
  cls : String
deriving DecidableEq

def iter_entry_points (registry : List EntryPoint) (nm : String) :
    List EntryPoint :=
  registry.filter (fun ep => ep.name = nm)

abbrev PluginCache := Option (Dict String)

deriving instance DecidableEq for Except

structure LoadOutcome where
  result : Except String String
  cache : PluginCache
  queriedRegistry : Bool
  warned : Bool
deriving DecidableEq

def load_class (registry : List EntryPoint) (st : PluginCache)
    (identifier : String) (default : Option String) : LoadOutcome :=
  let cache := st.getD []
  match dictLookup cache identifier with
  | some c =>
      { result := Except.ok c, cache := some cache,
        queriedRegistry := false, warned := false }
  | none =>
      let ident := py_lower identifier
      let classes := iter_entry_points registry ident
      let warned := decide (classes.length > 1)
      match classes, default with
      | [], some d =>
          { result := Except.ok d, cache := some cache,
            queriedRegistry := true, warned := warned }
      | [], none =>
          { result := Except.error ident, cache := some cache,
            queriedRegistry := true, warned := warned }
      | c :: _, _ =>
          { result := Except.ok c.cls,
            cache := some (dictInsert cache ident c.cls),
            queriedRegistry := true, warned := warned }

/-- Branch lemma: a cache hit returns the cached class without touching the
registry. -/
theorem load_class_hit (registry : List EntryPoint) (st : PluginCache)
    (identifier : String) (default : Option String) (c : String)
    (h : dictLookup (st.getD []) identifier = some c) :
    load_class registry st identifier default =
      { result := Except.ok c, cache := some (st.getD []),
        queriedRegistry := false, warned := false } := by
  simp only [load_class, h]

/-- Branch lemma: a cache miss with no matching entry point and no default
raises `ModuleMissingError` on the lower-cased identifier. -/
theorem load_class_miss_none (registry : List EntryPoint) (st : PluginCache)
    (identifier : String)
    (hm : dictLookup (st.getD []) identifier = none)
    (hc : iter_entry_points registry (py_lower identifier) = []) :
    load_class registry st identifier none =
      { result := Except.error (py_lower identifier), cache := some (st.getD []),
        queriedRegistry := true, warned := false } := by
  simp [load_class, hm, hc]

/-- Branch lemma: a cache miss with no matching entry point but a supplied
default returns the default. -/
theorem load_class_miss_default (registry : List EntryPoint) (st : PluginCache)
    (identifier : String) (d : String)
    (hm : dictLookup (st.getD []) identifier = none)
    (hc : iter_entry_points registry (py_lower identifier) = []) :
    load_class registry st identifier (some d) =
      { result := Except.ok d, cache := some (st.getD []),
        queriedRegistry := true, warned := false } := by
  simp [load_class, hm, hc]

/-- Branch lemma: a cache miss with at least one matching entry point loads
the first matching class and stores it in the cache under the lower-cased
identifier. -/
theorem load_class_miss_found (registry : List EntryPoint) (st : PluginCache)
    (identifier : String) (default : Option String) (c : EntryPoint)
    (cs : List EntryPoint)
    (hm : dictLookup (st.getD []) identifier = none)
    (hc : iter_entry_points registry (py_lower identifier) = c :: cs) :
    load_class registry st identifier default =
      { result := Except.ok c.cls,
        cache := some (dictInsert (st.getD []) (py_lower identifier) c.cls),
        queriedRegistry := true, warned := decide (cs.length + 1 > 1) } := by
  cases default <;> simp [load_class, hm, hc]

/-- Invariant of the plugin cache: every stored pair has a lower-cased key,
the key still matches at least one registered entry point, and the stored
class is the one loaded from the first matching entry point. -/
def CacheOK (registry : List EntryPoint) (st : PluginCache) : Prop :=
  ∀ p ∈ st.getD ([] : Dict String), py_lower p.1 = p.1 ∧
    ∃ c cs, iter_entry_points registry p.1 = c :: cs ∧ p.2 = c.cls

theorem cacheOK_none (registry : List EntryPoint) : CacheOK registry none := by
  intro p hp
  simp [Option.getD] at hp

/-- If the invariant holds and the lower-cased identifier has no matching
entry point, the identifier cannot be a key of the cache. -/
theorem lookup_none_of_no_entry (registry : List EntryPoint)
    (st : PluginCache) (identifier : String)
    (hok : CacheOK registry st)
    (hc : iter_entry_points registry (py_lower identifier) = []) :
    dictLookup (st.getD []) identifier = none := by
  cases h : dictLookup (st.getD []) identifier with
  | none => rfl
  | some v =>
    obtain ⟨hl, c, cs, hiter, _⟩ :=
      hok _ (mem_of_dictLookup_eq_some _ _ _ h)
    rw [hl] at hc
    rw [hiter] at hc
    cases hc

/-- `load_class` preserves the cache invariant. -/
theorem cacheOK_load_class (registry : List EntryPoint) (st : PluginCache)
    (identifier : String) (default : Option String)
    (hok : CacheOK registry st) :
    CacheOK registry (load_class registry st identifier default).cache := by
  cases hm : dictLookup (st.getD []) identifier with
  | some c =>
    rw [load_class_hit registry st identifier default c hm]
    exact hok
  | none =>
    cases hc : iter_entry_points registry (py_lower identifier) with
    | nil =>
      cases default with
      | none =>
        rw [load_class_miss_none registry st identifier hm hc]
        exact hok
      | some d =>
        rw [load_class_miss_default registry st identifier d hm hc]
        exact hok
    | cons c cs =>
      rw [load_class_miss_found registry st identifier default c cs hm hc]
      intro p hp
      rcases mem_dictInsert _ _ _ p hp with h1 | h1
      · subst h1
        exact ⟨py_lower_idem identifier, c, cs, hc, rfl⟩
      · exact hok p h1

/-- C2: for every identifier, `Plugin.load_class` raises `ModuleMissingError`
exactly when no entry point is registered under the lower-cased identifier and
the caller-supplied default is `None`; when no entry point matches and the
default is not `None`, it returns the default without raising. -/
theorem load_class_missing_iff (registry : List EntryPoint) (st : PluginCache)
    (identifier : String) (default : Option String)
    (hok : CacheOK registry st) :
    ((∃ e, (load_class registry st identifier default).result = Except.error e) ↔
      iter_entry_points registry (py_lower identifier) = [] ∧ default = none) ∧
    (∀ d, default = some d →
      iter_entry_points registry (py_lower identifier) = [] →
      (load_class registry st identifier default).result = Except.ok d) := by
  constructor
  · cases hm : dictLookup (st.getD []) identifier with
    | some c =>
      rw [load_class_hit registry st identifier default c hm]
      obtain ⟨hl, c', cs', hiter, -⟩ :=
        hok _ (mem_of_dictLookup_eq_some _ _ _ hm)
      constructor
      · rintro ⟨e, he⟩
        cases he
      · rintro ⟨hi, -⟩
        rw [hl, hiter] at hi
        cases hi
    | none =>
      cases hc : iter_entry_points registry (py_lower identifier) with
      | nil =>
        cases default with
        | none =>
          rw [load_class_miss_none registry st identifier hm hc]
          simp [hc]
        | some d =>
          rw [load_class_miss_default registry st identifier d hm hc]
          simp
      | cons c cs =>
        rw [load_class_miss_found registry st identifier default c cs hm hc]
        simp [hc]
  · intro d hd hiter
    subst hd
    have hm := lookup_none_of_no_entry registry st identifier hok hiter
    rw [load_class_miss_default registry st identifier d hm hiter]

theorem load_class_missing_iff_witness :
    ((∃ e, (load_class [⟨"foo", "m", "C"⟩] none "qux" none).result =
          Except.error e) ↔
      iter_entry_points [⟨"foo", "m", "C"⟩] (py_lower "qux") = [] ∧
        (none : Option String) = none) ∧
    (∀ d, (none : Option String) = some d →
      iter_entry_points [⟨"foo", "m", "C"⟩] (py_lower "qux") = [] →
      (load_class [⟨"foo", "m", "C"⟩] none "qux" none).result = Except.ok d) :=
  load_class_missing_iff [⟨"foo", "m", "C"⟩] none "qux" none
    (cacheOK_none [⟨"foo", "m", "C"⟩])

/-- C5 (amended): for an identifier with at least one matching entry point, a
second call to `load_class` returns the class stored in the cache by the first
call, but the entry-point registry is skipped on the second call exactly when
the identifier equals its own lower-casing (the cache membership test at the
top of `load_class` uses the original identifier, while entries are stored
under the lower-cased one). -/
theorem load_class_second_call (registry : List EntryPoint) (st : PluginCache)
    (identifier : String) (d1 d2 : Option String)
    (hok : CacheOK registry st)
    (hne : iter_entry_points registry (py_lower identifier) ≠ []) :
    ((load_class registry (load_class registry st identifier d1).cache
        identifier d2).result = (load_class registry st identifier d1).result) ∧
    (∃ c, dictLookup ((load_class registry st identifier d1).cache.getD [])
          (py_lower identifier) = some c ∧
      (load_class registry (load_class registry st identifier d1).cache
          identifier d2).result = Except.ok c) ∧
    ((load_class registry (load_class registry st identifier d1).cache
        identifier d2).queriedRegistry = false ↔
      py_lower identifier = identifier) := by
  cases hm : dictLookup (st.getD []) identifier with
  | some c =>
    obtain ⟨hl, -⟩ := hok _ (mem_of_dictLookup_eq_some _ _ _ hm)
    rw [load_class_hit registry st identifier d1 c hm]
    rw [load_class_hit registry (some (st.getD [])) identifier d2 c hm]
    refine ⟨rfl, ⟨c, ?_, rfl⟩, by simp [hl]⟩
    show dictLookup (st.getD []) (py_lower identifier) = some c
    rw [hl]
    exact hm
  | none =>
    cases hc : iter_entry_points registry (py_lower identifier) with
    | nil => exact absurd hc hne
    | cons c cs =>
      rw [load_class_miss_found registry st identifier d1 c cs hm hc]
      by_cases hl : py_lower identifier = identifier
      · rw [hl]
        have hhit : dictLookup
            ((some (dictInsert (st.getD []) identifier c.cls)).getD [])
            identifier = some c.cls := dictLookup_insert_self _ _ _
        rw [load_class_hit registry _ identifier d2 c.cls hhit]
        exact ⟨rfl, ⟨c.cls, dictLookup_insert_self _ _ _, rfl⟩, by simp⟩
      · have hmiss : dictLookup
            ((some (dictInsert (st.getD []) (py_lower identifier) c.cls)).getD [])
            identifier = none := by
          show dictLookup (dictInsert (st.getD []) (py_lower identifier) c.cls)
              identifier = none
          rw [dictLookup_insert_ne _ _ _ _ (fun h => hl h.symm)]
          exact hm
        rw [load_class_miss_found registry _ identifier d2 c cs hmiss hc]
        exact ⟨rfl, ⟨c.cls, dictLookup_insert_self _ _ _, rfl⟩, by simp [hl]⟩

theorem load_class_second_call_witness :
    ((load_class [⟨"foo", "m", "C"⟩]
        (load_class [⟨"foo", "m", "C"⟩] none "foo" none).cache
        "foo" none).result =
      (load_class [⟨"foo", "m", "C"⟩] none "foo" none).result) ∧
    (∃ c, dictLookup
          ((load_class [⟨"foo", "m", "C"⟩] none "foo" none).cache.getD [])
          (py_lower "foo") = some c ∧
      (load_class [⟨"foo", "m", "C"⟩]
          (load_class [⟨"foo", "m", "C"⟩] none "foo" none).cache
          "foo" none).result = Except.ok c) ∧
    ((load_class [⟨"foo", "m", "C"⟩]
        (load_class [⟨"foo", "m", "C"⟩] none "foo" none).cache
        "foo" none).queriedRegistry = false ↔
      py_lower "foo" = "foo") :=
  load_class_second_call [⟨"foo", "m", "C"⟩] none "foo" none none
    (cacheOK_none [⟨"foo", "m", "C"⟩]) (by decide)

/-- C5, counterexample to the claim as stated: `"Foo"` resolves to a
registered entry point, yet the second `load_class` call with the same
identifier string does consult the entry-point registry again, because the
cache stores the entry under `"foo"` while the membership test uses `"Foo"`. -/
theorem load_class_second_call_requeries :
    iter_entry_points [⟨"foo", "m", "C"⟩] (py_lower "Foo") ≠ [] ∧
    (load_class [⟨"foo", "m", "C"⟩]
        (load_class [⟨"foo", "m", "C"⟩] none "Foo" none).cache
        "Foo" none).queriedRegistry = true := by
  constructor
  · decide
  · decide

/-- C7: when more than one entry point matches the (lower-cased) identifier,
`load_class` logs the ambiguity warning and returns the class loaded from the
first matching entry point in registry order. -/
theorem load_class_ambiguous (registry : List EntryPoint) (st : PluginCache)
    (identifier : String) (default : Option String) (c1 c2 : EntryPoint)
    (cs : List EntryPoint)
    (hm : dictLookup (st.getD []) identifier = none)
    (hc : iter_entry_points registry (py_lower identifier) = c1 :: c2 :: cs) :
    (load_class registry st identifier default).warned = true ∧
    (load_class registry st identifier default).result = Except.ok c1.cls := by
  rw [load_class_miss_found registry st identifier default c1 (c2 :: cs) hm hc]
  simp

theorem load_class_ambiguous_witness :
    (load_class [⟨"dup", "m1", "A"⟩, ⟨"dup", "m2", "B"⟩] none "dup"
        none).warned = true ∧
    (load_class [⟨"dup", "m1", "A"⟩, ⟨"dup", "m2", "B"⟩] none "dup"
        none).result = Except.ok "A" :=
  load_class_ambiguous [⟨"dup", "m1", "A"⟩, ⟨"dup", "m2", "B"⟩] none "dup"
    none ⟨"dup", "m1", "A"⟩ ⟨"dup", "m2", "B"⟩ [] (by decide) (by decide)

/-- C9: `load_class` is case-insensitive in its identifier: the call on any
identifier returns the same result as the call on its lower-casing, and every
key the cache ever holds is a lower-cased identifier. -/
theorem load_class_case_insensitive (registry : List EntryPoint)
    (st : PluginCache) (identifier : String) (default : Option String)
    (hok : CacheOK registry st) :
    (load_class registry st identifier default).result =
      (load_class registry st (py_lower identifier) default).result ∧
    ∀ p ∈ (load_class registry st identifier default).cache.getD [],
      py_lower p.1 = p.1 := by
  refine ⟨?_, fun p hp =>
    (cacheOK_load_class registry st identifier default hok p hp).1⟩
  cases hm : dictLookup (st.getD []) identifier with
  | some c =>
    obtain ⟨hl, -⟩ := hok _ (mem_of_dictLookup_eq_some _ _ _ hm)
    rw [hl]
  | none =>
    cases hm2 : dictLookup (st.getD []) (py_lower identifier) with
    | some v =>
      obtain ⟨-, c, cs, hiter, hv⟩ :=
        hok _ (mem_of_dictLookup_eq_some _ _ _ hm2)
      rw [load_class_miss_found registry st identifier default c cs hm hiter]
      rw [load_class_hit registry st (py_lower identifier) default v hm2]
      have hv' : v = c.cls := hv
      rw [hv']
    | none =>
      cases hc : iter_entry_points registry (py_lower identifier) with
      | nil =>
        cases default with
        | none =>
          rw [load_class_miss_none registry st identifier hm hc]
          rw [load_class_miss_none registry st (py_lower identifier) hm2
            (by rw [py_lower_idem]; exact hc)]
          simp [py_lower_idem]
        | some d =>
          rw [load_class_miss_default registry st identifier d hm hc]
          rw [load_class_miss_default registry st (py_lower identifier) d hm2
            (by rw [py_lower_idem]; exact hc)]
      | cons c cs =>
        rw [load_class_miss_found registry st identifier default c cs hm hc]
        rw [load_class_miss_found registry st (py_lower identifier) default c cs
          hm2 (by rw [py_lower_idem]; exact hc)]

theorem load_class_case_insensitive_witness :
    (load_class [⟨"foo", "m", "C"⟩] none "Foo" none).result =
      (load_class [⟨"foo", "m", "C"⟩] none (py_lower "Foo") none).result ∧
    ∀ p ∈ (load_class [⟨"foo", "m", "C"⟩] none "Foo" none).cache.getD [],
      py_lower p.1 = p.1 :=
  load_class_case_insensitive [⟨"foo", "m", "C"⟩] none "Foo" none
    (cacheOK_none [⟨"foo", "m", "C"⟩])

/-- C10: when no entry point matches, returning the caller-supplied default
leaves the cache entries unchanged, and a later call without a default still
raises `ModuleMissingError` instead of returning the previously supplied
default. -/
theorem load_class_default_transient (registry : List EntryPoint)
    (st : PluginCache) (identifier : String) (d : String)
    (hok : CacheOK registry st)
    (hc : iter_entry_points registry (py_lower identifier) = []) :
    (load_class registry st identifier (some d)).result = Except.ok d ∧
    (load_class registry st identifier (some d)).cache = some (st.getD []) ∧
    (load_class registry (load_class registry st identifier (some d)).cache
        identifier none).result = Except.error (py_lower identifier) := by
  have hm := lookup_none_of_no_entry registry st identifier hok hc
  rw [load_class_miss_default registry st identifier d hm hc]
  refine ⟨rfl, rfl, ?_⟩
  rw [load_class_miss_none registry (some (st.getD [])) identifier hm hc]

theorem load_class_default_transient_witness :
    (load_class [⟨"foo", "m", "C"⟩] none "qux" (some "D")).result =
      Except.ok "D" ∧
    (load_class [⟨"foo", "m", "C"⟩] none "qux" (some "D")).cache =
      some (Option.getD none []) ∧
    (load_class [⟨"foo", "m", "C"⟩]
        (load_class [⟨"foo", "m", "C"⟩] none "qux" (some "D")).cache
        "qux" none).result = Except.error (py_lower "qux") :=
  load_class_default_transient [⟨"foo", "m", "C"⟩] none "qux" "D"
    (cacheOK_none [⟨"foo", "m", "C"⟩]) (by decide)

/-! ### Descriptors: `XModuleDescriptor`

`Location` is imported from `xmodule.modulestore`, which is not part of the
sources under verification.  Modelled from the spec: a `Location` "identifies
a content node (organization, course, category, name)" and is an "immutable
identity key", so it is a record of those four strings compared by value.

Metadata values are JSON-like scalars (`PyObj`).  A definition dict maps
string keys to either such a scalar or a list of child locations (`DefVal`);
`definition.get('children', [])` only ever iterates the latter.

A `Descriptor` is the state of one `XModuleDescriptor` instance.  `klass`
stands for `self.__class__` (subclasses are opaque, compared by name), and
`system` is an opaque token for the `DescriptorSystem` reference; the
system's `load_item` callable is passed to `get_children` explicitly.  The
remaining fields are exactly the attributes `__init__` sets: `metadata`,
`definition`, `location`, `name`, `category`, `shared_state_key`,
`_inherited_metadata` (a set of field names, as a duplicate-free list) and
`_child_instances` (the lazily-filled child cache).  `Descriptor` is a
one-constructor inductive rather than a structure because the child cache
nests `Descriptor` inside itself. -/

structure Location where
  org : String
  course : String
  category : String
  name : String
deriving DecidableEq

inductive PyObj where
  | str (s : String)
  | boolean (b : Bool)
  | int (n : Int)
  | null
deriving DecidableEq

inductive DefVal where
  | obj (v : PyObj)
  | locs (ls : List Location)
deriving DecidableEq

inductive Descriptor where
  | mk (klass : String) (system : String) (metadata : Dict PyObj)
      (definition : Dict DefVal) (location : Location)
      (name : String) (category : String)
      (shared_state_key : Option String)
      (inherited_metadata : List String)
      (child_instances : Option (List Descriptor))

def Descriptor.klass : Descriptor → String
  | .mk k _ _ _ _ _ _ _ _ _ => k

def Descriptor.system : Descriptor → String
  | .mk _ s _ _ _ _ _ _ _ _ => s

def Descriptor.metadata : Descriptor → Dict PyObj
  | .mk _ _ m _ _ _ _ _ _ _ => m

def Descriptor.definition : Descriptor → Dict DefVal
  | .mk _ _ _ df _ _ _ _ _ _ => df

def Descriptor.location : Descriptor → Location
  | .mk _ _ _ _ l _ _ _ _ _ => l

def Descriptor.name : Descriptor → String
  | .mk _ _ _ _ _ n _ _ _ _ => n

def Descriptor.category : Descriptor → String
  | .mk _ _ _ _ _ _ c _ _ _ => c

def Descriptor.shared_state_key : Descriptor → Option String
  | .mk _ _ _ _ _ _ _ ssk _ _ => ssk

def Descriptor.inherited_metadata : Descriptor → List String
  | .mk _ _ _ _ _ _ _ _ im _ => im

def Descriptor.child_instances : Descriptor → Option (List Descriptor)
  | .mk _ _ _ _ _ _ _ _ _ ci => ci

/-- Replace the two fields `inherit_metadata` mutates. -/
def Descriptor.withMeta : Descriptor → Dict PyObj → List String → Descriptor
  | .mk k s _ df l n c ssk _ ci, m, im => .mk k s m df l n c ssk im ci

/-- Replace the child cache, as `get_children` does on its first call. -/
def Descriptor.withChildren : Descriptor → Option (List Descriptor) → Descriptor
  | .mk k s m df l n c ssk im _, ci => .mk k s m df l n c ssk im ci

/-- Replace the attributes that do NOT participate in `__eq__`
(`system`, `name`, `category`, `_child_instances`). -/
def Descriptor.withOther :
    Descriptor → String → String → String → Option (List Descriptor) → Descriptor
  | .mk k _ m df l _ _ ssk im _, s, n, c, ci => .mk k s m df l n c ssk im ci

/-- `XModuleDescriptor.__init__`: `metadata` and `definition` default to `{}`
when not supplied, `name` and `category` are projected from the location, the
child cache starts as `None` and the inherited set starts empty. -/
def XModuleDescriptor_init (klass : String) (system : String)
    (definition : Option (Dict DefVal)) (location : Location)
    (metadata : Option (Dict PyObj)) (shared_state_key : Option String) :
    Descriptor :=
  .mk klass system (metadata.getD []) (definition.getD []) location
    location.name location.category shared_state_key [] none

/-- `XModuleDescriptor.inheritable_metadata`: the metadata fields a module can
inherit from its parent. -/
def inheritable_metadata : List String :=
  ["graded", "start", "due", "graceperiod", "showanswer", "rerandomize",
   "data_dir"]

/-- One iteration of the loop in `inherit_metadata`: if `attr` is not already
set in the descriptor's metadata and is present in the parent metadata, record
it as inherited and copy the parent's value. -/
def inheritAttr (metadata : Dict PyObj) (st : Dict PyObj × List String)
    (attr : String) : Dict PyObj × List String :=
  if dictContains st.1 attr then st
  else
    match dictLookup metadata attr with
    | some v => (dictInsert st.1 attr v, setAdd st.2 attr)
    | none => st

/-- `XModuleDescriptor.inherit_metadata`: fold the loop over
`inheritable_metadata`, updating `self.metadata` and
`self._inherited_metadata`. -/
def inherit_metadata (d : Descriptor) (metadata : Dict PyObj) : Descriptor :=
  let st := inheritable_metadata.foldl (inheritAttr metadata)
    (d.metadata, d.inherited_metadata)
  d.withMeta st.1 st.2

/-- `self.definition.get('children', [])` (the loop in `get_children` only
ever iterates a list of child locations). -/
def Descriptor.children_locs (d : Descriptor) : List Location :=
  match dictLookup d.definition "children" with
  | some (DefVal.locs ls) => ls
  | _ => []

/-- `XModuleDescriptor.get_children`: on a cold cache, load every child
location through `system.load_item`, push the parent's metadata down into
each child, and cache the list; on a warm cache return the cached list.  The
returned triple is (returned list, descriptor state after the call, locations
passed to `load_item` during the call). -/
def get_children (load_item : Location → Descriptor) (d : Descriptor) :
    List Descriptor × Descriptor × List Location :=
  match d.child_instances with
  | some cs => (cs, d, [])
  | none =>
      let cs := d.children_locs.map
        (fun loc => inherit_metadata (load_item loc) d.metadata)
      (cs, d.withChildren (some cs), d.children_locs)

/-- Python `==` on two dicts: same keys, equal values. -/
def dictEqv {α : Type} [DecidableEq α] (a b : Dict α) : Bool :=
  a.all (fun p => dictLookup b p.1 = some p.2) &&
  b.all (fun p => dictLookup a p.1 = some p.2)

/-- Python `==` on two sets of strings: mutual containment. -/
def setEqv (a b : List String) : Bool :=
  a.all (fun x => x ∈ b) && b.all (fun x => x ∈ a)

/-- `XModuleDescriptor.equality_attributes`. -/
def equality_attributes : List String :=
  ["definition", "metadata", "location", "shared_state_key",
   "_inherited_metadata"]

/-- `getattr(self, attr, None) == getattr(other, attr, None)` for one
attribute name (an attribute neither side has compares `None == None`). -/
def attrEq (d1 d2 : Descriptor) : String → Bool
  | "definition" => dictEqv d1.definition d2.definition
  | "metadata" => dictEqv d1.metadata d2.metadata
  | "location" => d1.location = d2.location
  | "shared_state_key" => d1.shared_state_key = d2.shared_state_key
  | "_inherited_metadata" =>
      setEqv d1.inherited_metadata d2.inherited_metadata
  | _ => true

/-- `XModuleDescriptor.__eq__`: same class and equal values of every
attribute in `equality_attributes`. -/
def descr_eq (d1 d2 : Descriptor) : Bool :=
  d1.klass = d2.klass && equality_attributes.all (attrEq d1 d2)

@[simp]
theorem Descriptor.withMeta_metadata (d : Descriptor) (m : Dict PyObj)
    (im : List String) : (d.withMeta m im).metadata = m := by
  cases d
  rfl

@[simp]
theorem Descriptor.withMeta_inherited (d : Descriptor) (m : Dict PyObj)
    (im : List String) : (d.withMeta m im).inherited_metadata = im := by
  cases d
  rfl

@[simp]
theorem Descriptor.withMeta_withMeta (d : Descriptor) (m m' : Dict PyObj)
    (im im' : List String) :
    (d.withMeta m im).withMeta m' im' = d.withMeta m' im' := by
  cases d
  rfl

@[simp]
theorem Descriptor.withChildren_child_instances (d : Descriptor)
    (ci : Option (List Descriptor)) :
    (d.withChildren ci).child_instances = ci := by
  cases d
  rfl

@[simp]
theorem Descriptor.withOther_klass (d : Descriptor) (s n c : String)
    (ci : Option (List Descriptor)) : (d.withOther s n c ci).klass = d.klass := by
  cases d
  rfl

@[simp]
theorem Descriptor.withOther_metadata (d : Descriptor) (s n c : String)
    (ci : Option (List Descriptor)) :
    (d.withOther s n c ci).metadata = d.metadata := by
  cases d
  rfl

@[simp]
theorem Descriptor.withOther_definition (d : Descriptor) (s n c : String)
    (ci : Option (List Descriptor)) :
    (d.withOther s n c ci).definition = d.definition := by
  cases d
  rfl

@[simp]
theorem Descriptor.withOther_location (d : Descriptor) (s n c : String)
    (ci : Option (List Descriptor)) :
    (d.withOther s n c ci).location = d.location := by
  cases d
  rfl

@[simp]
theorem Descriptor.withOther_shared_state_key (d : Descriptor) (s n c : String)
    (ci : Option (List Descriptor)) :
    (d.withOther s n c ci).shared_state_key = d.shared_state_key := by
  cases d
  rfl

@[simp]
theorem Descriptor.withOther_inherited (d : Descriptor) (s n c : String)
    (ci : Option (List Descriptor)) :
    (d.withOther s n c ci).inherited_metadata = d.inherited_metadata := by
  cases d
  rfl

/-! ### Lemmas about the inheritance fold -/

theorem inheritAttr_fst_ne (parent : Dict PyObj) (st : Dict PyObj × List String)
    (a attr : String) (h : ¬a = attr) :
    dictLookup (inheritAttr parent st a).1 attr = dictLookup st.1 attr := by
  unfold inheritAttr
  by_cases hc : dictContains st.1 a = true
  · rw [if_pos hc]
  · rw [if_neg hc]
    cases hv : dictLookup parent a with
    | none => rfl
    | some v => exact dictLookup_insert_ne st.1 a attr v (Ne.symm h)

theorem inheritAttr_snd_ne (parent : Dict PyObj) (st : Dict PyObj × List String)
    (a attr : String) (h : ¬a = attr) :
    (attr ∈ (inheritAttr parent st a).2 ↔ attr ∈ st.2) := by
  unfold inheritAttr
  by_cases hc : dictContains st.1 a = true
  · rw [if_pos hc]
  · rw [if_neg hc]
    cases hv : dictLookup parent a with
    | none => exact Iff.rfl
    | some v =>
      show attr ∈ setAdd st.2 a ↔ attr ∈ st.2
      rw [mem_setAdd]
      simp [Ne.symm h]

theorem inheritFold_fst_not_mem (parent : Dict PyObj) (attr : String) :
    ∀ (attrs : List String), attr ∉ attrs →
    ∀ st : Dict PyObj × List String,
      dictLookup (attrs.foldl (inheritAttr parent) st).1 attr =
        dictLookup st.1 attr := by
  intro attrs
  induction attrs with
  | nil =>
    intro _ st
    rfl
  | cons a rest ih =>
    intro h st
    rw [List.mem_cons] at h
    push_neg at h
    rw [List.foldl_cons, ih h.2, inheritAttr_fst_ne parent st a attr (Ne.symm h.1)]

theorem inheritFold_snd_not_mem (parent : Dict PyObj) (attr : String) :
    ∀ (attrs : List String), attr ∉ attrs →
    ∀ st : Dict PyObj × List String,
      (attr ∈ (attrs.foldl (inheritAttr parent) st).2 ↔ attr ∈ st.2) := by
  intro attrs
  induction attrs with
  | nil =>
    intro _ st
    exact Iff.rfl
  | cons a rest ih =>
    intro h st
    rw [List.mem_cons] at h
    push_neg at h
    rw [List.foldl_cons, ih h.2, inheritAttr_snd_ne parent st a attr (Ne.symm h.1)]

theorem inheritFold_fst_contains (parent : Dict PyObj) (attr : String) :
    ∀ (attrs : List String) (st : Dict PyObj × List String),
      dictContains st.1 attr = true →
      dictLookup (attrs.foldl (inheritAttr parent) st).1 attr =
        dictLookup st.1 attr := by
  intro attrs
  induction attrs with
  | nil =>
    intro st _
    rfl
  | cons a rest ih =>
    intro st h
    rw [List.foldl_cons]
    by_cases ha : a = attr
    · subst ha
      have hstep : inheritAttr parent st a = st := by
        unfold inheritAttr
        rw [if_pos h]
      rw [hstep]
      exact ih st h
    · have h1 := inheritAttr_fst_ne parent st a attr ha
      have h2 : dictContains (inheritAttr parent st a).1 attr = true := by
        unfold dictContains at h ⊢
        rw [h1]
        exact h
      rw [ih _ h2, h1]

theorem inheritFold_fst_new (parent : Dict PyObj) (attr : String) (v : PyObj)
    (hv : dictLookup parent attr = some v) :
    ∀ (attrs : List String), attrs.Nodup → attr ∈ attrs →
    ∀ st : Dict PyObj × List String, dictContains st.1 attr = false →
      dictLookup (attrs.foldl (inheritAttr parent) st).1 attr = some v := by
  intro attrs
  induction attrs with
  | nil =>
    intro _ hmem
    cases hmem
  | cons a rest ih =>
    intro hnd hmem st hc
    rw [List.foldl_cons]
    by_cases ha : a = attr
    · subst ha
      have hstep : inheritAttr parent st a =
          (dictInsert st.1 a v, setAdd st.2 a) := by
        simp [inheritAttr, hc, hv]
      have hnm : a ∉ rest := (List.nodup_cons.mp hnd).1
      rw [hstep, inheritFold_fst_not_mem parent a rest hnm]
      exact dictLookup_insert_self st.1 a v
    · have hmem' : attr ∈ rest := by
        rcases List.mem_cons.mp hmem with e | e
        · exact absurd e.symm ha
        · exact e
      have h1 := inheritAttr_fst_ne parent st a attr ha
      have hc' : dictContains (inheritAttr parent st a).1 attr = false := by
        unfold dictContains at hc ⊢
        rw [h1]
        exact hc
      exact ih (List.nodup_cons.mp hnd).2 hmem' _ hc'

theorem inheritFold_fst_absent (parent : Dict PyObj) (attr : String)
    (hv : dictLookup parent attr = none) :
    ∀ (attrs : List String) (st : Dict PyObj × List String),
      dictContains st.1 attr = false →
      dictLookup (attrs.foldl (inheritAttr parent) st).1 attr = none := by
  intro attrs
  induction attrs with
  | nil =>
    intro st hc
    cases hl : dictLookup st.1 attr with
    | none => exact hl
    | some w =>
      unfold dictContains at hc
      rw [hl] at hc
      cases hc
  | cons a rest ih =>
    intro st hc
    rw [List.foldl_cons]
    by_cases ha : a = attr
    · subst ha
      have hstep : inheritAttr parent st a = st := by
        simp [inheritAttr, hc, hv]
      rw [hstep]
      exact ih st hc
    · have h1 := inheritAttr_fst_ne parent st a attr ha
      have hc' : dictContains (inheritAttr parent st a).1 attr = false := by
        unfold dictContains at hc ⊢
        rw [h1]
        exact hc
      exact ih _ hc'

theorem inheritFold_snd_mem (parent : Dict PyObj) (attr : String) :
    ∀ (attrs : List String), attrs.Nodup →
    ∀ st : Dict PyObj × List String,
      (attr ∈ (attrs.foldl (inheritAttr parent) st).2 ↔
        attr ∈ st.2 ∨ (attr ∈ attrs ∧ dictContains st.1 attr = false ∧
          dictContains parent attr = true)) := by
  intro attrs
  induction attrs with
  | nil =>
    intro _ st
    simp
  | cons a rest ih =>
    intro hnd st
    rw [List.foldl_cons]
    by_cases ha : a = attr
    · subst ha
      have hnm : a ∉ rest := (List.nodup_cons.mp hnd).1
      rw [inheritFold_snd_not_mem parent a rest hnm]
      by_cases hc : dictContains st.1 a = true
      · have hstep : inheritAttr parent st a = st := by
          unfold inheritAttr
          rw [if_pos hc]
        rw [hstep]
        simp [hc]
      · have hc' : dictContains st.1 a = false := by
          simpa using hc
        cases hv : dictLookup parent a with
        | some v =>
          have hstep : inheritAttr parent st a =
              (dictInsert st.1 a v, setAdd st.2 a) := by
            simp [inheritAttr, hc', hv]
          have hcp : dictContains parent a = true := by
            simp [dictContains, hv]
          rw [hstep]
          show a ∈ setAdd st.2 a ↔ _
          rw [mem_setAdd]
          simp [hc', hcp]
        | none =>
          have hstep : inheritAttr parent st a = st := by
            simp [inheritAttr, hc', hv]
          have hcp : dictContains parent a = false := by
            simp [dictContains, hv]
          rw [hstep]
          simp [hcp]
    · have h1 := inheritAttr_fst_ne parent st a attr ha
      have h2 := inheritAttr_snd_ne parent st a attr ha
      rw [ih (List.nodup_cons.mp hnd).2 (inheritAttr parent st a), h2]
      unfold dictContains
      rw [h1]
      simp only [List.mem_cons]
      constructor
      · rintro (hy | ⟨hm, hrest⟩)
        · exact Or.inl hy
        · exact Or.inr ⟨Or.inr hm, hrest⟩
      · rintro (hy | ⟨hm, hrest⟩)
        · exact Or.inl hy
        · rcases hm with e | hm
          · exact absurd e.symm ha
          · exact Or.inr ⟨hm, hrest⟩

theorem inheritFold_id (parent : Dict PyObj) :
    ∀ (attrs : List String) (st : Dict PyObj × List String),
      (∀ a ∈ attrs, dictContains st.1 a = true ∨ dictLookup parent a = none) →
      attrs.foldl (inheritAttr parent) st = st := by
  intro attrs
  induction attrs with
  | nil =>
    intro st _
    rfl
  | cons a rest ih =>
    intro st h
    have hstep : inheritAttr parent st a = st := by
      rcases h a (List.mem_cons_self a rest) with hc | hv
      · unfold inheritAttr
        rw [if_pos hc]
      · by_cases hc : dictContains st.1 a = true
        · unfold inheritAttr
          rw [if_pos hc]
        · have hc' : dictContains st.1 a = false := by simpa using hc
          simp [inheritAttr, hc', hv]
    rw [List.foldl_cons, hstep]
    exact ih st (fun b hb => h b (List.mem_cons_of_mem a hb))

theorem inheritFold_saturates (parent : Dict PyObj) (attrs : List String)
    (hnd : attrs.Nodup) (st : Dict PyObj × List String) :
    ∀ a ∈ attrs,
      dictContains (attrs.foldl (inheritAttr parent) st).1 a = true ∨
        dictLookup parent a = none := by
  intro a ha
  by_cases hc : dictContains st.1 a = true
  · left
    unfold dictContains
    rw [inheritFold_fst_contains parent a attrs st hc]
    exact hc
  · cases hv : dictLookup parent a with
    | none => exact Or.inr rfl
    | some v =>
      left
      unfold dictContains
      rw [inheritFold_fst_new parent a v hv attrs hnd ha st (by simpa using hc)]
      rfl

/-- Branch lemma: `get_children` on a warm cache returns it unchanged without
loading anything. -/
theorem get_children_cached (load_item : Location → Descriptor)
    (d : Descriptor) (cs : List Descriptor) (h : d.child_instances = some cs) :
    get_children load_item d = (cs, d, []) := by
  unfold get_children
  rw [h]

/-- Branch lemma: `get_children` on a cold cache loads and inherits each
child and caches the list. -/
theorem get_children_uncached (load_item : Location → Descriptor)
    (d : Descriptor) (h : d.child_instances = none) :
    get_children load_item d =
      (d.children_locs.map (fun loc => inherit_metadata (load_item loc) d.metadata),
       d.withChildren (some (d.children_locs.map
         (fun loc => inherit_metadata (load_item loc) d.metadata))),
       d.children_locs) := by
  unfold get_children
  rw [h]

/-- C1: `inherit_metadata` sets a field on the descriptor's metadata exactly
when the field is listed in `inheritable_metadata`, is present in the parent
metadata, and is absent from the descriptor's own metadata; any other field —
in particular any field the descriptor authored itself — keeps its prior
value. -/
theorem inherit_metadata_only_unset_inheritable (d : Descriptor)
    (parent : Dict PyObj) (attr : String) :
    dictLookup (inherit_metadata d parent).metadata attr =
      if attr ∈ inheritable_metadata ∧ dictContains d.metadata attr = false ∧
          dictContains parent attr = true
      then dictLookup parent attr
      else dictLookup d.metadata attr := by
  unfold inherit_metadata
  rw [Descriptor.withMeta_metadata]
  by_cases h1 : attr ∈ inheritable_metadata
  · by_cases h2 : dictContains d.metadata attr = false
    · cases hv : dictLookup parent attr with
      | some v =>
        have hcp : dictContains parent attr = true := by
          simp [dictContains, hv]
        rw [if_pos ⟨h1, h2, hcp⟩]
        exact inheritFold_fst_new parent attr v hv inheritable_metadata
          (by decide) h1 (d.metadata, d.inherited_metadata) h2
      | none =>
        have hcp : dictContains parent attr = false := by
          simp [dictContains, hv]
        rw [if_neg (by simp [hcp])]
        have h3 := inheritFold_fst_absent parent attr hv inheritable_metadata
          (d.metadata, d.inherited_metadata) h2
        rw [h3]
        cases hl : dictLookup d.metadata attr with
        | none => rfl
        | some w =>
          rw [dictContains, hl] at h2
          cases h2
    · have h2' : dictContains d.metadata attr = true := by simpa using h2
      rw [if_neg (by simp [h2'])]
      exact inheritFold_fst_contains parent attr inheritable_metadata
        (d.metadata, d.inherited_metadata) h2'
  · rw [if_neg (by simp [h1])]
    exact inheritFold_fst_not_mem parent attr inheritable_metadata h1
      (d.metadata, d.inherited_metadata)

/-- C6: metadata inheritance is idempotent — a second `inherit_metadata` call
with the same parent metadata leaves the descriptor (in particular its
`metadata` and `_inherited_metadata`) exactly as after the first. -/
theorem inherit_metadata_idem (d : Descriptor) (m : Dict PyObj) :
    inherit_metadata (inherit_metadata d m) m = inherit_metadata d m := by
  have hsat := inheritFold_saturates m inheritable_metadata (by decide)
    (d.metadata, d.inherited_metadata)
  have hfix := inheritFold_id m inheritable_metadata
    (inheritable_metadata.foldl (inheritAttr m)
      (d.metadata, d.inherited_metadata)) hsat
  unfold inherit_metadata
  simp only [Descriptor.withMeta_metadata, Descriptor.withMeta_inherited,
    Descriptor.withMeta_withMeta, Prod.mk.eta]
  rw [hfix]

/-- An attribute the descriptor already has keeps its metadata entry and
stays out of the inherited set across any sequence of `inherit_metadata`
calls. -/
theorem inherit_metadata_keeps_authored (attr : String) :
    ∀ (ms : List (Dict PyObj)) (d : Descriptor),
      dictContains d.metadata attr = true → attr ∉ d.inherited_metadata →
      dictContains (ms.foldl inherit_metadata d).metadata attr = true ∧
        attr ∉ (ms.foldl inherit_metadata d).inherited_metadata := by
  intro ms
  induction ms with
  | nil =>
    intro d h1 h2
    exact ⟨h1, h2⟩
  | cons m rest ih =>
    intro d h1 h2
    rw [List.foldl_cons]
    apply ih
    · unfold inherit_metadata
      rw [Descriptor.withMeta_metadata]
      unfold dictContains at h1 ⊢
      rw [inheritFold_fst_contains m attr inheritable_metadata
        (d.metadata, d.inherited_metadata) h1]
      exact h1
    · unfold inherit_metadata
      rw [Descriptor.withMeta_inherited]
      rw [inheritFold_snd_mem m attr inheritable_metadata (by decide)
        (d.metadata, d.inherited_metadata)]
      rintro (hy | ⟨-, hfalse, -⟩)
      · exact h2 hy
      · rw [h1] at hfalse
        cases hfalse

/-- C8: `_inherited_metadata` records exactly the fields received by
inheritance: it starts empty at construction, `inherit_metadata` adds a field
name precisely when it copies that field's value from the parent, and a field
the descriptor authored at construction never enters the set. -/
theorem inherited_metadata_tracks_inheritance :
    (∀ (klass system : String) (defn : Option (Dict DefVal)) (loc : Location)
        (md : Option (Dict PyObj)) (ssk : Option String),
      (XModuleDescriptor_init klass system defn loc md ssk).inherited_metadata
        = []) ∧
    (∀ (d : Descriptor) (m : Dict PyObj) (attr : String),
      attr ∈ (inherit_metadata d m).inherited_metadata ↔
        (attr ∈ d.inherited_metadata ∨
          (attr ∈ inheritable_metadata ∧ dictContains d.metadata attr = false ∧
            dictContains m attr = true))) ∧
    (∀ (klass system : String) (defn : Option (Dict DefVal)) (loc : Location)
        (md : Option (Dict PyObj)) (ssk : Option String)
        (ms : List (Dict PyObj)) (attr : String),
      dictContains (md.getD []) attr = true →
      attr ∉ (ms.foldl inherit_metadata
          (XModuleDescriptor_init klass system defn loc md ssk)).inherited_metadata) := by
  refine ⟨fun _ _ _ _ _ _ => rfl, ?_, ?_⟩
  · intro d m attr
    unfold inherit_metadata
    rw [Descriptor.withMeta_inherited]
    exact inheritFold_snd_mem m attr inheritable_metadata (by decide)
      (d.metadata, d.inherited_metadata)
  · intro klass system defn loc md ssk ms attr h
    exact (inherit_metadata_keeps_authored attr ms
      (XModuleDescriptor_init klass system defn loc md ssk) h
      (by simp [XModuleDescriptor_init, Descriptor.inherited_metadata])).2

theorem inherited_metadata_tracks_inheritance_witness :
    (XModuleDescriptor_init "problem" "sys" none
        ⟨"org", "course", "problem", "p1"⟩
        (some [("graded", PyObj.boolean true)]) none).inherited_metadata
      = [] ∧
    ("start" ∈
        (inherit_metadata
          (XModuleDescriptor_init "problem" "sys" none
            ⟨"org", "course", "problem", "p1"⟩
            (some [("graded", PyObj.boolean true)]) none)
          [("start", PyObj.str "2012")]).inherited_metadata ↔
      ("start" ∈
          (XModuleDescriptor_init "problem" "sys" none
            ⟨"org", "course", "problem", "p1"⟩
            (some [("graded", PyObj.boolean true)]) none).inherited_metadata ∨
        ("start" ∈ inheritable_metadata ∧
          dictContains
            (XModuleDescriptor_init "problem" "sys" none
              ⟨"org", "course", "problem", "p1"⟩
              (some [("graded", PyObj.boolean true)]) none).metadata "start"
            = false ∧
          dictContains [("start", PyObj.str "2012")] "start" = true))) ∧
    "graded" ∉
      ([[("start", PyObj.str "2012"), ("graded", PyObj.boolean false)]].foldl
        inherit_metadata
        (XModuleDescriptor_init "problem" "sys" none
          ⟨"org", "course", "problem", "p1"⟩
          (some [("graded", PyObj.boolean true)]) none)).inherited_metadata :=
  ⟨inherited_metadata_tracks_inheritance.1 "problem" "sys" none
      ⟨"org", "course", "problem", "p1"⟩
      (some [("graded", PyObj.boolean true)]) none,
    inherited_metadata_tracks_inheritance.2.1
      (XModuleDescriptor_init "problem" "sys" none
        ⟨"org", "course", "problem", "p1"⟩
        (some [("graded", PyObj.boolean true)]) none)
      [("start", PyObj.str "2012")] "start",
    inherited_metadata_tracks_inheritance.2.2 "problem" "sys" none
      ⟨"org", "course", "problem", "p1"⟩
      (some [("graded", PyObj.boolean true)]) none
      [[("start", PyObj.str "2012"), ("graded", PyObj.boolean false)]]
      "graded" (by decide)⟩

/-- C3: two descriptors are `__eq__`-equal iff they have the same class and
pairwise-equal values of `definition`, `metadata`, `location`,
`shared_state_key` and `_inherited_metadata`; the remaining attributes
(`system`, `name`, `category`, `_child_instances`) and object identity play
no role. -/
theorem descr_eq_spec (d1 d2 : Descriptor) (s n c : String)
    (ci ci' : Option (List Descriptor)) :
    (descr_eq d1 d2 = true ↔
      (d1.klass = d2.klass ∧ dictEqv d1.definition d2.definition = true ∧
        dictEqv d1.metadata d2.metadata = true ∧ d1.location = d2.location ∧
        d1.shared_state_key = d2.shared_state_key ∧
        setEqv d1.inherited_metadata d2.inherited_metadata = true)) ∧
    descr_eq (d1.withOther s n c ci) (d2.withOther s n c ci') =
      descr_eq d1 d2 := by
  constructor
  · simp [descr_eq, equality_attributes, attrEq, Bool.and_eq_true,
      decide_eq_true_eq, and_assoc]
  · simp [descr_eq, equality_attributes, attrEq]

/-- C4: `get_children` is lazy and caching: on a cold cache it loads exactly
the locations in `definition['children']` through `load_item`, pushes the
parent's metadata into each loaded child via `inherit_metadata`, and caches
the list; any later call returns the cached list with no loads and no further
inheritance, however `load_item` behaves by then. -/
theorem get_children_lazy_cached (load_item : Location → Descriptor)
    (d : Descriptor) :
    (d.child_instances = none →
      (get_children load_item d).2.2 = d.children_locs ∧
      (get_children load_item d).1 = d.children_locs.map
        (fun loc => inherit_metadata (load_item loc) d.metadata) ∧
      (get_children load_item d).2.1.child_instances =
        some (get_children load_item d).1) ∧
    (∀ g : Location → Descriptor,
      get_children g (get_children load_item d).2.1 =
        ((get_children load_item d).1, (get_children load_item d).2.1, [])) := by
  cases hci : d.child_instances with
  | some cs =>
    rw [get_children_cached load_item d cs hci]
    constructor
    · intro h
      cases h
    · intro g
      exact get_children_cached g d cs hci
  | none =>
    rw [get_children_uncached load_item d hci]
    constructor
    · intro h
      exact ⟨rfl, rfl, by rw [Descriptor.withChildren_child_instances]⟩
    · intro g
      exact get_children_cached g _ _ (Descriptor.withChildren_child_instances _ _)

def sampleChildLoc : Location := ⟨"org", "course", "html", "child1"⟩

def sampleParent : Descriptor :=
  XModuleDescriptor_init "vertical" "sys"
    (some [("children", DefVal.locs [sampleChildLoc])])
    ⟨"org", "course", "vertical", "p"⟩
    (some [("graded", PyObj.boolean true)]) none

def sampleLoad : Location → Descriptor :=
  fun l => XModuleDescriptor_init "html" "sys" none l none none

theorem get_children_lazy_cached_witness :
    ((get_children sampleLoad sampleParent).2.2 = sampleParent.children_locs ∧
      (get_children sampleLoad sampleParent).1 =
        sampleParent.children_locs.map
          (fun loc => inherit_metadata (sampleLoad loc) sampleParent.metadata) ∧
      (get_children sampleLoad sampleParent).2.1.child_instances =
        some (get_children sampleLoad sampleParent).1) ∧
    (∀ g : Location → Descriptor,
      get_children g (get_children sampleLoad sampleParent).2.1 =
        ((get_children sampleLoad sampleParent).1,
          (get_children sampleLoad sampleParent).2.1, [])) :=
  ⟨(get_children_lazy_cached sampleLoad sampleParent).1 rfl,
    (get_children_lazy_cached sampleLoad sampleParent).2⟩

end XModulePy
